import Mathlib

/-!
Verification of the DRAMsim3 memory-system orchestration layer
(`src/dram_system.cc`): the base system (clock, sinks, channel decoding,
process-wide channel tally), the timing-accurate `JedecDRAMSystem` and the
fixed-latency `IdealDRAMSystem`.

Pure functions of the source are embedded as Lean functions; the mutable
objects are embedded as explicit state records with one Lean function per
C++ member function, returning the updated state (and, where the source
invokes the completion callbacks, the list of invocations made).
-/

namespace dramsim3

/-- Modelled from the spec: the `Transaction` value record (spec section 3;
declared in `dram_system.h`, which is not part of the visible sources):
address, direction, and the tick at which it was admitted (meaningful only
for the ideal model). -/
structure Transaction where
  addr : Nat
  is_write : Bool
  added_cycle : Nat

/-- Modelled from the spec: the configuration surface read by this layer
(spec sections 3 and 6; `Config` is declared outside the visible sources).
Only the fields that `dram_system.cc` reads are modelled. -/
structure Config where
  channels : Nat
  shift_bits : Nat
  ch_width : Nat
  ch_pos : Nat
  epoch_period : Nat
  ideal_memory_latency : Nat
  output_level : Int
  is_hmc : Bool

/-- Unsigned 64-bit subtraction as performed by C++ on `uint64_t`
operands: the difference modulo 2 ^ 64. -/
def usub64 (a b : Nat) : Nat :=
  (a % 2 ^ 64 + (2 ^ 64 - b % 2 ^ 64)) % 2 ^ 64

/-- Modelled from the spec: `ModuloWidth` (defined outside the visible
sources) extracts the field of `bit_width` bits at bit position `pos` of
`addr`, per the AddressDecoder contract of spec section 4.1. -/
def ModuloWidth (addr : Nat) (bit_width pos : Nat) : Nat :=
  (addr >>> pos) % 2 ^ bit_width

/-- `BaseDRAMSystem::GetChannel` (`dram_system.cc` lines 58-61): shift the
address right by `shift_bits`, then extract the channel field. -/
def GetChannel (cfg : Config) (hex_addr : Nat) : Nat :=
  ModuloWidth (hex_addr >>> cfg.shift_bits) cfg.ch_width cfg.ch_pos

/-- State of an `IdealDRAMSystem`: the base-class clock and callbacks
(callbacks are modelled as opaque handles) plus the fixed latency and the
unbounded pending queue `infinite_buffer_q_`. -/
structure IdealState where
  clk_ : Nat
  latency_ : Nat
  infinite_buffer_q_ : List Transaction
  read_callback_ : Nat
  write_callback_ : Nat

/-- `IdealDRAMSystem::IdealDRAMSystem` (lines 154-158) on top of
`BaseDRAMSystem::BaseDRAMSystem` (lines 11-47): clock starts at 0, the
queue is empty, and the latency is taken from the configuration. -/
def IdealConstruct (cfg : Config) (rcb wcb : Nat) : IdealState :=
  { clk_ := 0
    latency_ := cfg.ideal_memory_latency
    infinite_buffer_q_ := []
    read_callback_ := rcb
    write_callback_ := wcb }

/-- `IdealDRAMSystem::AddTransaction` (lines 162-167): stamp the new
transaction with the current clock, append it to the queue, return true. -/
def IdealAddTransaction (s : IdealState) (hex_addr : Nat) (is_write : Bool) :
    Bool × IdealState :=
  (true,
   { s with infinite_buffer_q_ :=
      s.infinite_buffer_q_ ++ [⟨hex_addr, is_write, s.clk_⟩] })

/-- The callback invocation the source makes for a completed transaction
(lines 173-177): the stored write callback for writes, the stored read
callback for reads, in both cases applied to the transaction's address. -/
def matchingCallback (s : IdealState) (t : Transaction) : Nat × Nat :=
  if t.is_write then (s.write_callback_, t.addr) else (s.read_callback_, t.addr)

/-- The queue scan of `IdealDRAMSystem::ClockTick` (lines 170-183),
returning the kept transactions and the completed ones (in completion
order). The loop body runs `trans_it = infinite_buffer_q_.erase(trans_it++)`
when a transaction is due and then unconditionally advances the iterator
once more (`if (trans_it != infinite_buffer_q_.end()) ++trans_it;`), so the
element directly after an erased one is passed over in the same scan.  The
Boolean argument records exactly that: it is true when the iterator has
just been repositioned by `erase`, so the element at hand is skipped by the
unconditional advance without being examined. -/
def ClockTickScan (clk lat : Nat) : Bool → List Transaction →
    List Transaction × List Transaction
  | _, [] => ([], [])
  | true, t :: rest =>
    let r := ClockTickScan clk lat false rest
    (t :: r.1, r.2)
  | false, t :: rest =>
    if lat ≤ usub64 clk t.added_cycle then
      let r := ClockTickScan clk lat true rest
      (r.1, t :: r.2)
    else
      let r := ClockTickScan clk lat false rest
      (t :: r.1, r.2)

/-- `IdealDRAMSystem::ClockTick` (lines 169-187): scan the queue invoking
the matching callback of each transaction the scan completes and dropping
it from the queue, then increment the clock.  The second component lists
the callback invocations made, in order. -/
def IdealClockTick (s : IdealState) : IdealState × List (Nat × Nat) :=
  let r := ClockTickScan s.clk_ s.latency_ false s.infinite_buffer_q_
  ({ s with clk_ := s.clk_ + 1, infinite_buffer_q_ := r.1 },
   r.2.map (matchingCallback s))

/-- `BaseDRAMSystem::RegisterCallbacks` (lines 63-69): replace the stored
callbacks. -/
def IdealRegisterCallbacks (s : IdealState) (rcb wcb : Nat) : IdealState :=
  { s with read_callback_ := rcb, write_callback_ := wcb }

/-- An operation the external driver can perform on an `IdealDRAMSystem`. -/
inductive IdealOp where
  | add (hex_addr : Nat) (is_write : Bool)
  | tick
  | reg (rcb wcb : Nat)

/-- Effect of one driver operation on the ideal-system state. -/
def IdealStep (s : IdealState) : IdealOp → IdealState
  | .add a w => (IdealAddTransaction s a w).2
  | .tick => (IdealClockTick s).1
  | .reg r w => IdealRegisterCallbacks s r w

/-- Run a sequence of driver operations on the ideal system. -/
def IdealRun (s : IdealState) : List IdealOp → IdealState
  | [] => s
  | op :: ops => IdealRun (IdealStep s op) ops

/-- Whether a driver operation is the advancement call. -/
def IdealOp.isTick : IdealOp → Bool
  | .tick => true
  | _ => false

/-- Modelled from the spec: a `ChannelController` at its boundary (spec
sections 2 and 6; the controller is an external collaborator of this
layer).  It carries its channel index, its admission predicate, its
transaction queue, and opaque internal timing state. -/
structure Controller where
  channel_id : Nat
  accepts : Nat → Bool → Bool
  queue : List Transaction
  core : Nat

instance : Inhabited Controller :=
  ⟨{ channel_id := 0, accepts := fun _ _ => false, queue := [], core := 0 }⟩

/-- Modelled from the spec: handing a transaction to a controller's queue
(`Controller::AddTransaction`, outside the visible sources). -/
def CtrlAddTransaction (c : Controller) (t : Transaction) : Controller :=
  { c with queue := c.queue ++ [t] }

/-- State of a `JedecDRAMSystem`: the base-class clock, configuration and
callbacks, the per-channel controllers `ctrls_`, and the report sinks this
layer writes (each modelled as the list of rows appended so far, one row
identified by the channel index of the controller that produced it). -/
structure JedecState where
  clk_ : Nat
  config_ : Config
  ctrls_ : List Controller
  epoch_csv_file_ : List Nat
  stats_out_ : List Nat
  read_callback_ : Nat
  write_callback_ : Nat

/-- `JedecDRAMSystem::JedecDRAMSystem` (lines 71-91): an HMC configuration
is reported and aborts construction (`AbruptExit`, modelled as the error
outcome) before the controller loop runs, so no controller is allocated;
otherwise one controller per configured channel is allocated, in channel
order.  `mkCtrl` stands for the (externally defined) controller
constructor applied to the channel index. -/
def JedecConstruct (mkCtrl : Nat → Controller) (cfg : Config) (rcb wcb : Nat) :
    Except Unit JedecState :=
  if cfg.is_hmc then Except.error ()
  else Except.ok
    { clk_ := 0
      config_ := cfg
      ctrls_ := (List.range cfg.channels).map mkCtrl
      epoch_csv_file_ := []
      stats_out_ := []
      read_callback_ := rcb
      write_callback_ := wcb }

/-- `JedecDRAMSystem::WillAcceptTransaction` (lines 99-103): decode the
channel and ask that channel's controller; no state is touched. -/
def JedecWillAcceptTransaction (s : JedecState) (hex_addr : Nat)
    (is_write : Bool) : Bool :=
  (s.ctrls_.getD (GetChannel s.config_ hex_addr) default).accepts hex_addr is_write

/-- `JedecDRAMSystem::AddTransaction` (lines 105-122): decode the channel,
re-check that channel's admission, and hand a newly constructed
`Transaction` to that channel's controller exactly when the check
succeeded; return the check's outcome.  (`assert(ok)` halts a debug build
when the check fails; the returned flag records the same outcome.) -/
def JedecAddTransaction (s : JedecState) (hex_addr : Nat) (is_write : Bool) :
    Bool × JedecState :=
  let channel := GetChannel s.config_ hex_addr
  let ok := (s.ctrls_.getD channel default).accepts hex_addr is_write
  if ok then
    let ctrl := CtrlAddTransaction (s.ctrls_.getD channel default) ⟨hex_addr, is_write, 0⟩
    (ok, { s with ctrls_ := s.ctrls_.set channel ctrl })
  else (ok, s)

/-- The per-channel advancement phase of `JedecDRAMSystem::ClockTick`
(lines 128-130): every controller advances one tick.  The controller's own
advancement is the externally defined `Controller::ClockTick`, stood for
by the parameter `step`; by its type it can touch nothing but the
controller it is applied to. -/
def JedecAdvancePhase (step : Controller → Controller) (s : JedecState) :
    JedecState :=
  { s with ctrls_ := s.ctrls_.map step }

/-- The reporting phase of `JedecDRAMSystem::ClockTick` (lines 133-140):
when the clock is an exact multiple of the epoch period, every controller
appends one row to the periodic-epoch sink (`Controller::PrintEpochStats`,
modelled from the spec as appending exactly one row per controller). -/
def JedecReportPhase (s : JedecState) : JedecState :=
  if s.clk_ % s.config_.epoch_period = 0 then
    { s with epoch_csv_file_ :=
        s.epoch_csv_file_ ++ s.ctrls_.map (fun c => c.channel_id) }
  else s

/-- `JedecDRAMSystem::ClockTick` (lines 124-142): advancement phase, then
the clock increment, then the reporting phase. -/
def JedecClockTick (step : Controller → Controller) (s : JedecState) :
    JedecState :=
  let s1 := JedecAdvancePhase step s
  JedecReportPhase { s1 with clk_ := s1.clk_ + 1 }

/-- `BaseDRAMSystem::RegisterCallbacks` (lines 63-69) on a Jedec system. -/
def JedecRegisterCallbacks (s : JedecState) (rcb wcb : Nat) : JedecState :=
  { s with read_callback_ := rcb, write_callback_ := wcb }

/-- `JedecDRAMSystem::PrintStats` (lines 144-152): every controller writes
its final statistics to the final sinks (`Controller::PrintFinalStats`,
modelled from the spec as appending one record per controller). -/
def JedecPrintStats (s : JedecState) : JedecState :=
  { s with stats_out_ := s.stats_out_ ++ s.ctrls_.map (fun c => c.channel_id) }

/-- An operation the external driver can perform on a `JedecDRAMSystem`. -/
inductive JedecOp where
  | add (hex_addr : Nat) (is_write : Bool)
  | tick
  | reg (rcb wcb : Nat)
  | stats

/-- Effect of one driver operation on the Jedec-system state. -/
def JedecStep (step : Controller → Controller) (s : JedecState) :
    JedecOp → JedecState
  | .add a w => (JedecAddTransaction s a w).2
  | .tick => JedecClockTick step s
  | .reg r w => JedecRegisterCallbacks s r w
  | .stats => JedecPrintStats s

/-- Run a sequence of driver operations on the Jedec system. -/
def JedecRun (step : Controller → Controller) (s : JedecState) :
    List JedecOp → JedecState
  | [] => s
  | op :: ops => JedecRun step (JedecStep step s op) ops

/-- Whether a driver operation is the advancement call. -/
def JedecOp.isTick : JedecOp → Bool
  | .tick => true
  | _ => false

/-- The update `total_channels_ += config_.channels` performed by
`BaseDRAMSystem::BaseDRAMSystem` (line 23) on the process-wide channel
tally (line 9).  No other statement of this layer mentions the tally, so
every other operation leaves it unchanged; in particular the destructors
(lines 49-56 and 93-97) do not touch it. -/
def BaseConstructTally (cfg : Config) (total_channels_ : Nat) : Nat :=
  total_channels_ + cfg.channels

/-- The tally after constructing one system per listed configuration, in
order, starting from tally value `t`. -/
def ConstructManyTally (t : Nat) : List Config → Nat
  | [] => t
  | cfg :: rest => ConstructManyTally (BaseConstructTally cfg t) rest

/-- The report sinks a `BaseDRAMSystem` can open. -/
inductive Sink where
  | stats_txt
  | stats_csv
  | epoch_csv
  | histo_csv
deriving DecidableEq

/-- The sinks opened by `BaseDRAMSystem::BaseDRAMSystem` (lines 30-41),
by verbosity tier: tier at least 0 opens the summary text and table
sinks, tier at least 1 additionally the periodic-epoch sink, tier at
least 2 additionally the histogram sink. -/
def openedSinks (output_level : Int) : List Sink :=
  (if 0 ≤ output_level then [Sink.stats_txt, Sink.stats_csv] else []) ++
  (if 1 ≤ output_level then [Sink.epoch_csv] else []) ++
  (if 2 ≤ output_level then [Sink.histo_csv] else [])

/-- The sinks explicitly closed by `BaseDRAMSystem::~BaseDRAMSystem`
(lines 49-56): the summary text, table and periodic-epoch sinks,
unconditionally; the histogram sink is not closed there. -/
def explicitlyClosedSinks : List Sink :=
  [Sink.stats_txt, Sink.stats_csv, Sink.epoch_csv]

/-- The scenario refuting the strict form of the ideal latency law:
latency 1, two read transactions (addresses 100 and 200) submitted at
tick 0, read callback handle 0, write callback handle 1. -/
def idealTwoReads : IdealState :=
  (IdealAddTransaction
    (IdealAddTransaction (IdealConstruct ⟨1, 0, 0, 0, 10, 1, 1, false⟩ 0 1)
      100 false).2
    200 false).2

/-- A concrete one-channel Jedec state (clock 1, epoch period 2) whose
controller accepts every transaction. -/
def jedecAcceptAll : JedecState :=
  { clk_ := 1
    config_ := ⟨1, 0, 0, 0, 2, 1, 1, false⟩
    ctrls_ := [⟨0, fun _ _ => true, [], 0⟩]
    epoch_csv_file_ := []
    stats_out_ := []
    read_callback_ := 0
    write_callback_ := 0 }

/-- The same concrete state with a controller that rejects every
transaction. -/
def jedecRejectAll : JedecState :=
  { jedecAcceptAll with ctrls_ := [⟨0, fun _ _ => false, [], 0⟩] }

/-- The queue kept by the scan is a sublist of the scanned queue: the scan
only ever removes elements, and the kept ones are unchanged. -/
theorem clockTickScan_sublist (clk lat : Nat) (q : List Transaction) :
    ∀ b, ((ClockTickScan clk lat b q).1).Sublist q := by
  induction q with
  | nil => intro b; cases b <;> simp [ClockTickScan]
  | cons t rest ih =>
    intro b
    cases b with
    | true => simpa [ClockTickScan] using (ih false).cons₂ t
    | false =>
      by_cases hdue : lat ≤ usub64 clk t.added_cycle
      · simpa [ClockTickScan, hdue] using (ih true).cons t
      · simpa [ClockTickScan, hdue] using (ih false).cons₂ t

/-- The kept and the completed transactions of the scan together are a
permutation of the scanned queue: nothing is lost or invented. -/
theorem clockTickScan_perm (clk lat : Nat) (q : List Transaction) :
    ∀ b, ((ClockTickScan clk lat b q).1 ++ (ClockTickScan clk lat b q).2).Perm q := by
  induction q with
  | nil => intro b; cases b <;> simp [ClockTickScan]
  | cons t rest ih =>
    intro b
    cases b with
    | true => simpa [ClockTickScan] using (ih false).cons t
    | false =>
      by_cases hdue : lat ≤ usub64 clk t.added_cycle
      · simp only [ClockTickScan, hdue, if_true]
        exact List.perm_middle.trans ((ih true).cons t)
      · simpa [ClockTickScan, hdue] using (ih false).cons t

/-- C1: the ideal latency law fails on the code.  With latency 1 and two
read transactions submitted at tick 0 (so both are due at the tick whose
advancement call starts at clock 1 = T + L), the advancement call at clock
0 fires nothing; the call at clock 1 fires only the first transaction's
callback, because after erasing a due transaction the loop's unconditional
iterator advance passes over the element that follows it; the second
transaction's callback fires one tick late, in the call at clock 2 =
T + L + 1. -/
theorem ideal_latency_law_failure :
    idealTwoReads.clk_ = 0
    ∧ idealTwoReads.infinite_buffer_q_
        = [⟨100, false, 0⟩, ⟨200, false, 0⟩]
    ∧ (IdealClockTick idealTwoReads).2 = []
    ∧ (IdealClockTick idealTwoReads).1.clk_ = 1
    ∧ (IdealClockTick (IdealClockTick idealTwoReads).1).2 = [(0, 100)]
    ∧ (IdealClockTick (IdealClockTick idealTwoReads).1).1.infinite_buffer_q_
        = [⟨200, false, 0⟩]
    ∧ (IdealClockTick (IdealClockTick idealTwoReads).1).1.clk_ = 2
    ∧ (IdealClockTick (IdealClockTick (IdealClockTick idealTwoReads).1).1).2
        = [(0, 200)] := by
  refine ⟨rfl, rfl, rfl, rfl, rfl, rfl, rfl, rfl⟩

/-- C2: `IdealDRAMSystem::AddTransaction`, from any state whatever, returns
true and appends exactly one transaction — stamped with the current tick —
to the single pending queue, leaving the clock, the latency and the
callbacks unchanged. -/
theorem ideal_submit_unconditional (s : IdealState) (hex_addr : Nat)
    (is_write : Bool) :
    (IdealAddTransaction s hex_addr is_write).1 = true
    ∧ (IdealAddTransaction s hex_addr is_write).2.infinite_buffer_q_
        = s.infinite_buffer_q_ ++ [⟨hex_addr, is_write, s.clk_⟩]
    ∧ (IdealAddTransaction s hex_addr is_write).2.clk_ = s.clk_
    ∧ (IdealAddTransaction s hex_addr is_write).2.latency_ = s.latency_
    ∧ (IdealAddTransaction s hex_addr is_write).2.read_callback_
        = s.read_callback_
    ∧ (IdealAddTransaction s hex_addr is_write).2.write_callback_
        = s.write_callback_ :=
  ⟨rfl, rfl, rfl, rfl, rfl, rfl⟩

/-- C10: in one `IdealDRAMSystem::ClockTick` call, the retained queue is a
sublist of the previous queue (every retained transaction is identical to
one that was already pending), the previous queue is exactly the retained
transactions plus the completed ones, and the callback invocations of the
call are precisely the matching callbacks of the completed transactions,
each applied to its transaction's address, in completion order — so a
transaction is removed exactly in the call that invoked its callback, and
none is discarded without its callback firing. -/
theorem ideal_tick_queue_invariant (s : IdealState) :
    ((IdealClockTick s).1.infinite_buffer_q_).Sublist s.infinite_buffer_q_
    ∧ ((IdealClockTick s).1.infinite_buffer_q_
        ++ (ClockTickScan s.clk_ s.latency_ false s.infinite_buffer_q_).2).Perm
        s.infinite_buffer_q_
    ∧ (IdealClockTick s).2
        = (ClockTickScan s.clk_ s.latency_ false s.infinite_buffer_q_).2.map
            (matchingCallback s)
    ∧ (IdealClockTick s).2.length
        + (IdealClockTick s).1.infinite_buffer_q_.length
        = s.infinite_buffer_q_.length := by
  refine ⟨clockTickScan_sublist _ _ _ false, clockTickScan_perm _ _ _ false,
    rfl, ?_⟩
  have h :=
    (clockTickScan_perm s.clk_ s.latency_ s.infinite_buffer_q_ false).length_eq
  simp only [IdealClockTick, List.length_append, List.length_map] at h ⊢
  omega

/-- C8: constructing systems with channel counts c1..cN, in any order and
starting from any tally value, increases the process-wide channel tally by
exactly the sum of the counts, and no single construction ever decreases
it.  (No other operation of this layer mentions the tally, so interleaved
submissions, ticks or destructions leave it untouched by construction of
the model.) -/
theorem channel_tally_monotone :
    (∀ (t : Nat) (cfgs : List Config),
        ConstructManyTally t cfgs
          = t + (cfgs.map (fun c => c.channels)).sum)
    ∧ (∀ (cfg : Config) (t : Nat), t ≤ BaseConstructTally cfg t) := by
  constructor
  · intro t cfgs
    induction cfgs generalizing t with
    | nil => simp [ConstructManyTally]
    | cons c rest ih =>
      simp only [ConstructManyTally, BaseConstructTally, ih, List.map_cons,
        List.sum_cons]
      omega
  · intro cfg t
    simp [BaseConstructTally]

/-- C9 counterexample: at verbosity tier 2 the histogram sink is opened at
construction but is not among the sinks the destructor explicitly
releases, so the explicitly released set does not equal the opened set. -/
theorem sink_histogram_not_explicitly_closed :
    Sink.histo_csv ∈ openedSinks 2
    ∧ Sink.histo_csv ∉ explicitlyClosedSinks := by
  decide

/-- C9 (as amended): the destructor explicitly releases exactly the
summary text, table and periodic-epoch sinks at every verbosity tier.
Every opened sink other than the histogram sink is explicitly released;
the histogram sink, opened at tier at least 2, is never explicitly
released (its release is left to member destruction); and at tiers below
1 the epoch sink is closed without having been opened. -/
theorem sink_lifecycle_explicit_closes (tier : Int) :
    explicitlyClosedSinks = [Sink.stats_txt, Sink.stats_csv, Sink.epoch_csv]
    ∧ (∀ sk, sk ∈ openedSinks tier →
        sk = Sink.histo_csv ∨ sk ∈ explicitlyClosedSinks)
    ∧ (2 ≤ tier → Sink.histo_csv ∈ openedSinks tier)
    ∧ Sink.histo_csv ∉ explicitlyClosedSinks
    ∧ (tier < 1 → Sink.epoch_csv ∉ openedSinks tier
        ∧ Sink.epoch_csv ∈ explicitlyClosedSinks) := by
  refine ⟨rfl, ?_, ?_, by decide, ?_⟩
  · intro sk _
    cases sk <;> decide
  · intro h2
    have h0 : (0 : Int) ≤ tier := by omega
    have h1 : (1 : Int) ≤ tier := by omega
    simp [openedSinks, h0, h1, h2]
  · intro hlt
    have h1 : ¬ (1 : Int) ≤ tier := by omega
    have h2 : ¬ (2 : Int) ≤ tier := by omega
    refine ⟨?_, by decide⟩
    simp only [openedSinks, h1, h2, if_false, List.append_nil]
    split <;> simp

/-- The channel index computed by `GetChannel` is the `ch_width`-bit field
of the address at bit position `shift_bits + ch_pos`. -/
theorem getChannel_eq (cfg : Config) (a : Nat) :
    GetChannel cfg a
      = (a / 2 ^ (cfg.shift_bits + cfg.ch_pos)) % 2 ^ cfg.ch_width := by
  simp only [GetChannel, ModuloWidth, Nat.shiftRight_eq_div_pow]
  rw [Nat.div_div_eq_div_mul, ← pow_add]

/-- Every natural number splits into the bits below position `k`, the `w`
bits at position `k`, and the bits above position `k + w`. -/
theorem bits_decompose (k w x : Nat) :
    x = x % 2 ^ k + 2 ^ k * ((x / 2 ^ k) % 2 ^ w + 2 ^ w * (x / 2 ^ (k + w))) := by
  have h3 : x / 2 ^ k / 2 ^ w = x / 2 ^ (k + w) := by
    rw [Nat.div_div_eq_div_mul, pow_add]
  calc x = x % 2 ^ k + 2 ^ k * (x / 2 ^ k) := (Nat.mod_add_div x (2 ^ k)).symm
    _ = x % 2 ^ k + 2 ^ k * ((x / 2 ^ k) % 2 ^ w + 2 ^ w * (x / 2 ^ k / 2 ^ w)) := by
        rw [Nat.mod_add_div (x / 2 ^ k) (2 ^ w)]
    _ = x % 2 ^ k + 2 ^ k * ((x / 2 ^ k) % 2 ^ w + 2 ^ w * (x / 2 ^ (k + w))) := by
        rw [h3]

/-- C4: `GetChannel` partitions the address space by the configured channel
field.  Two addresses with equal channel-field bits (the `ch_width` bits at
position `shift_bits + ch_pos`) get the same channel; two distinct
addresses that agree on all bits below and all bits above that field (so
they differ only inside it) get different channels when the field width is
positive; and with field width 0 every address gets channel 0. -/
theorem getChannel_partitioning :
    (∀ (cfg : Config) (a b : Nat),
        (a >>> (cfg.shift_bits + cfg.ch_pos)) % 2 ^ cfg.ch_width
          = (b >>> (cfg.shift_bits + cfg.ch_pos)) % 2 ^ cfg.ch_width →
        GetChannel cfg a = GetChannel cfg b)
    ∧ (∀ (cfg : Config) (a b : Nat), 0 < cfg.ch_width →
        a % 2 ^ (cfg.shift_bits + cfg.ch_pos)
          = b % 2 ^ (cfg.shift_bits + cfg.ch_pos) →
        a >>> (cfg.shift_bits + cfg.ch_pos + cfg.ch_width)
          = b >>> (cfg.shift_bits + cfg.ch_pos + cfg.ch_width) →
        a ≠ b →
        GetChannel cfg a ≠ GetChannel cfg b)
    ∧ (∀ (cfg : Config) (a : Nat), cfg.ch_width = 0 → GetChannel cfg a = 0) := by
  refine ⟨?_, ?_, ?_⟩
  · intro cfg a b h
    rw [getChannel_eq, getChannel_eq]
    rwa [Nat.shiftRight_eq_div_pow, Nat.shiftRight_eq_div_pow] at h
  · intro cfg a b _hw hlow hhigh hne heq
    apply hne
    rw [getChannel_eq, getChannel_eq] at heq
    rw [Nat.shiftRight_eq_div_pow, Nat.shiftRight_eq_div_pow] at hhigh
    calc a
        = a % 2 ^ (cfg.shift_bits + cfg.ch_pos)
          + 2 ^ (cfg.shift_bits + cfg.ch_pos)
            * ((a / 2 ^ (cfg.shift_bits + cfg.ch_pos)) % 2 ^ cfg.ch_width
              + 2 ^ cfg.ch_width
                * (a / 2 ^ (cfg.shift_bits + cfg.ch_pos + cfg.ch_width))) :=
          bits_decompose _ _ a
      _ = b % 2 ^ (cfg.shift_bits + cfg.ch_pos)
          + 2 ^ (cfg.shift_bits + cfg.ch_pos)
            * ((b / 2 ^ (cfg.shift_bits + cfg.ch_pos)) % 2 ^ cfg.ch_width
              + 2 ^ cfg.ch_width
                * (b / 2 ^ (cfg.shift_bits + cfg.ch_pos + cfg.ch_width))) := by
          rw [hlow, heq, hhigh]
      _ = b := (bits_decompose _ _ b).symm
  · intro cfg a h
    rw [getChannel_eq, h]
    rw [pow_zero]
    exact Nat.mod_one _

/-- Witness for C4 at the spec's own example: channel-field width 1 at bit
position 6, no intra-line shift.  Addresses 0x00 and 0x3F agree on the
field and land on the same channel; 0x00 and 0x40 differ only inside the
field and land on different channels; with field width 0 the channel of
address 12345 is 0. -/
theorem getChannel_partitioning_witness :
    GetChannel ⟨2, 0, 1, 6, 10, 1, 1, false⟩ 0
      = GetChannel ⟨2, 0, 1, 6, 10, 1, 1, false⟩ 63
    ∧ GetChannel ⟨2, 0, 1, 6, 10, 1, 1, false⟩ 0
      ≠ GetChannel ⟨2, 0, 1, 6, 10, 1, 1, false⟩ 64
    ∧ GetChannel ⟨1, 0, 0, 0, 10, 1, 1, false⟩ 12345 = 0 :=
  ⟨getChannel_partitioning.1 _ 0 63 (by decide),
   getChannel_partitioning.2.1 _ 0 64 (by decide) (by decide) (by decide)
     (by decide),
   getChannel_partitioning.2.2 _ 12345 rfl⟩

/-- With the decoded channel's admission check succeeding,
`JedecDRAMSystem::AddTransaction` returns true and updates exactly that
channel's controller. -/
theorem jedecAddTransaction_pos (s : JedecState) (a : Nat) (w : Bool)
    (h : (s.ctrls_.getD (GetChannel s.config_ a) default).accepts a w = true) :
    JedecAddTransaction s a w
      = (true, { s with ctrls_ := s.ctrls_.set (GetChannel s.config_ a) (CtrlAddTransaction (s.ctrls_.getD (GetChannel s.config_ a) default) ⟨a, w, 0⟩) }) := by
  simp only [JedecAddTransaction]
  rw [h]
  simp

/-- With the decoded channel's admission check failing,
`JedecDRAMSystem::AddTransaction` returns false and changes nothing. -/
theorem jedecAddTransaction_neg (s : JedecState) (a : Nat) (w : Bool)
    (h : (s.ctrls_.getD (GetChannel s.config_ a) default).accepts a w = false) :
    JedecAddTransaction s a w = (false, s) := by
  simp only [JedecAddTransaction]
  rw [h]
  simp

/-- C3: `JedecDRAMSystem::AddTransaction` returns exactly the outcome of
re-checking the decoded channel's admission; on rejection the whole state
is left untouched; the clock never changes; and on admission the decoded
channel's controller receives exactly the newly constructed transaction at
the end of its queue while every other controller is untouched. -/
theorem jedec_submit_admission (s : JedecState) (hex_addr : Nat)
    (is_write : Bool) :
    (JedecAddTransaction s hex_addr is_write).1
      = JedecWillAcceptTransaction s hex_addr is_write
    ∧ ((JedecAddTransaction s hex_addr is_write).1 = false →
        (JedecAddTransaction s hex_addr is_write).2 = s)
    ∧ (JedecAddTransaction s hex_addr is_write).2.clk_ = s.clk_
    ∧ ((JedecAddTransaction s hex_addr is_write).1 = true →
        (JedecAddTransaction s hex_addr is_write).2.ctrls_
          = s.ctrls_.set (GetChannel s.config_ hex_addr)
              (CtrlAddTransaction
                (s.ctrls_.getD (GetChannel s.config_ hex_addr) default)
                ⟨hex_addr, is_write, 0⟩)
        ∧ ∀ j, j ≠ GetChannel s.config_ hex_addr →
            ((JedecAddTransaction s hex_addr is_write).2.ctrls_)[j]?
              = (s.ctrls_)[j]?) := by
  by_cases hok : (s.ctrls_.getD (GetChannel s.config_ hex_addr) default).accepts
      hex_addr is_write
  · rw [jedecAddTransaction_pos s hex_addr is_write hok]
    refine ⟨?_, ?_, rfl, ?_⟩
    · unfold JedecWillAcceptTransaction
      exact hok.symm
    · intro hfalse
      simp at hfalse
    · intro _
      refine ⟨rfl, ?_⟩
      intro j hj
      exact List.getElem?_set_ne (Ne.symm hj)
  · rw [Bool.not_eq_true] at hok
    rw [jedecAddTransaction_neg s hex_addr is_write hok]
    refine ⟨?_, fun _ => rfl, rfl, ?_⟩
    · unfold JedecWillAcceptTransaction
      exact hok.symm
    · intro htrue
      simp at htrue

/-- Witness for C3: on the rejecting one-channel state, submitting leaves
the state untouched; on the accepting one, the (single) decoded channel's
controller receives the new transaction. -/
theorem jedec_submit_admission_witness :
    (JedecAddTransaction jedecRejectAll 5 false).2 = jedecRejectAll
    ∧ (JedecAddTransaction jedecAcceptAll 5 false).2.ctrls_
      = jedecAcceptAll.ctrls_.set (GetChannel jedecAcceptAll.config_ 5)
          (CtrlAddTransaction
            (jedecAcceptAll.ctrls_.getD (GetChannel jedecAcceptAll.config_ 5)
              default)
            ⟨5, false, 0⟩) :=
  ⟨(jedec_submit_admission jedecRejectAll 5 false).2.1 rfl,
   ((jedec_submit_admission jedecAcceptAll 5 false).2.2.2 rfl).1⟩

/-- Witness for the amended C9 at concrete tiers 2 and 0. -/
theorem sink_lifecycle_explicit_closes_witness :
    (Sink.stats_txt = Sink.histo_csv ∨ Sink.stats_txt ∈ explicitlyClosedSinks)
    ∧ Sink.histo_csv ∈ openedSinks 2
    ∧ (Sink.epoch_csv ∉ openedSinks 0 ∧ Sink.epoch_csv ∈ explicitlyClosedSinks) :=
  ⟨(sink_lifecycle_explicit_closes 2).2.1 Sink.stats_txt (by decide),
   (sink_lifecycle_explicit_closes 2).2.2.1 (by decide),
   (sink_lifecycle_explicit_closes 0).2.2.2.2 (by decide)⟩

/-- C5: constructing the timing-accurate system from a configuration
flagged as HMC fails immediately with the error outcome, which carries no
state at all, so zero controllers are allocated; from any other
configuration it succeeds and allocates exactly one controller per
configured channel, the controller of channel i being built for index i. -/
theorem jedec_construct_validation (mkCtrl : Nat → Controller) (cfg : Config)
    (rcb wcb : Nat) :
    (cfg.is_hmc = true → JedecConstruct mkCtrl cfg rcb wcb = Except.error ())
    ∧ (cfg.is_hmc = false →
        ∃ s, JedecConstruct mkCtrl cfg rcb wcb = Except.ok s
          ∧ s.ctrls_ = (List.range cfg.channels).map mkCtrl
          ∧ s.ctrls_.length = cfg.channels) := by
  constructor
  · intro h
    simp [JedecConstruct, h]
  · intro h
    have he : JedecConstruct mkCtrl cfg rcb wcb = Except.ok { clk_ := 0, config_ := cfg, ctrls_ := (List.range cfg.channels).map mkCtrl, epoch_csv_file_ := [], stats_out_ := [], read_callback_ := rcb, write_callback_ := wcb } := by
      simp [JedecConstruct, h]
    exact ⟨_, he, rfl, by simp⟩

/-- Witness for C5: a three-channel non-HMC configuration yields three
controllers; the same configuration flagged HMC yields the error. -/
theorem jedec_construct_validation_witness :
    JedecConstruct (fun i => ⟨i, fun _ _ => true, [], 0⟩)
        ⟨3, 0, 0, 0, 10, 1, 1, true⟩ 0 0 = Except.error ()
    ∧ ∃ s, JedecConstruct (fun i => ⟨i, fun _ _ => true, [], 0⟩)
        ⟨3, 0, 0, 0, 10, 1, 1, false⟩ 0 0 = Except.ok s
        ∧ s.ctrls_ = (List.range 3).map (fun i => ⟨i, fun _ _ => true, [], 0⟩)
        ∧ s.ctrls_.length = 3 :=
  ⟨(jedec_construct_validation (fun i => ⟨i, fun _ _ => true, [], 0⟩)
      ⟨3, 0, 0, 0, 10, 1, 1, true⟩ 0 0).1 rfl,
   (jedec_construct_validation (fun i => ⟨i, fun _ _ => true, [], 0⟩)
      ⟨3, 0, 0, 0, 10, 1, 1, false⟩ 0 0).2 rfl⟩

/-- C6: the per-channel advancement phase never touches the periodic-epoch
sink; after the clock increment, exactly when the new clock value is a
multiple of the epoch period, the tick appends exactly one row per
controller (the advanced controllers' rows, in channel order) to the sink,
and otherwise the sink is unchanged. -/
theorem jedec_report_cadence (step : Controller → Controller) (s : JedecState) :
    (JedecAdvancePhase step s).epoch_csv_file_ = s.epoch_csv_file_
    ∧ ((s.clk_ + 1) % s.config_.epoch_period = 0 →
        (JedecClockTick step s).epoch_csv_file_
          = s.epoch_csv_file_ ++ (s.ctrls_.map step).map (fun c => c.channel_id)
        ∧ (JedecClockTick step s).epoch_csv_file_.length
          = s.epoch_csv_file_.length + s.ctrls_.length)
    ∧ ((s.clk_ + 1) % s.config_.epoch_period ≠ 0 →
        (JedecClockTick step s).epoch_csv_file_ = s.epoch_csv_file_) := by
  refine ⟨rfl, ?_, ?_⟩
  · intro h
    constructor
    · simp [JedecClockTick, JedecAdvancePhase, JedecReportPhase, h]
    · simp [JedecClockTick, JedecAdvancePhase, JedecReportPhase, h]
  · intro h
    simp [JedecClockTick, JedecAdvancePhase, JedecReportPhase, h]

/-- Witness for C6 on the concrete one-channel state: at clock 1 with
epoch period 2 the tick reports one row; at clock 0 it reports nothing. -/
theorem jedec_report_cadence_witness :
    ((JedecClockTick (fun c => c) jedecAcceptAll).epoch_csv_file_
      = jedecAcceptAll.epoch_csv_file_
        ++ (jedecAcceptAll.ctrls_.map (fun c => c)).map (fun c => c.channel_id)
      ∧ (JedecClockTick (fun c => c) jedecAcceptAll).epoch_csv_file_.length
        = jedecAcceptAll.epoch_csv_file_.length + jedecAcceptAll.ctrls_.length)
    ∧ (JedecClockTick (fun c => c)
        { jedecAcceptAll with clk_ := 0 }).epoch_csv_file_
      = { jedecAcceptAll with clk_ := 0 }.epoch_csv_file_ :=
  ⟨(jedec_report_cadence (fun c => c) jedecAcceptAll).2.1 (by decide),
   (jedec_report_cadence (fun c => c) { jedecAcceptAll with clk_ := 0 }).2.2
     (by decide)⟩

/-- One driver operation changes the ideal clock by one exactly when it is
the advancement call. -/
theorem idealStep_clk (s : IdealState) (op : IdealOp) :
    (IdealStep s op).clk_ = s.clk_ + (if op.isTick then 1 else 0) := by
  cases op <;>
    simp [IdealStep, IdealOp.isTick, IdealAddTransaction, IdealClockTick,
      IdealRegisterCallbacks]

/-- `JedecDRAMSystem::ClockTick` increments the clock by exactly one. -/
theorem jedecClockTick_clk (step : Controller → Controller) (s : JedecState) :
    (JedecClockTick step s).clk_ = s.clk_ + 1 := by
  simp only [JedecClockTick, JedecReportPhase, JedecAdvancePhase]
  split <;> rfl

/-- `JedecDRAMSystem::AddTransaction` leaves the clock unchanged. -/
theorem jedecAddTransaction_clk (s : JedecState) (a : Nat) (w : Bool) :
    (JedecAddTransaction s a w).2.clk_ = s.clk_ := by
  simp only [JedecAddTransaction]
  split <;> rfl

/-- One driver operation changes the Jedec clock by one exactly when it is
the advancement call. -/
theorem jedecStep_clk (step : Controller → Controller) (s : JedecState)
    (op : JedecOp) :
    (JedecStep step s op).clk_ = s.clk_ + (if op.isTick then 1 else 0) := by
  cases op with
  | add a w =>
    simpa [JedecStep, JedecOp.isTick] using jedecAddTransaction_clk s a w
  | tick => simpa [JedecStep, JedecOp.isTick] using jedecClockTick_clk step s
  | reg r w => simp [JedecStep, JedecOp.isTick, JedecRegisterCallbacks]
  | stats => simp [JedecStep, JedecOp.isTick, JedecPrintStats]

/-- Over a run, the ideal clock grows by exactly the number of
advancement calls. -/
theorem idealRun_clk (ops : List IdealOp) :
    ∀ s : IdealState,
      (IdealRun s ops).clk_ = s.clk_ + ops.countP IdealOp.isTick := by
  induction ops with
  | nil => intro s; simp [IdealRun]
  | cons op rest ih =>
    intro s
    rw [IdealRun, ih, idealStep_clk, List.countP_cons]
    by_cases h : op.isTick
    · simp only [h, if_true]
      omega
    · simp [h]

/-- Over a run, the Jedec clock grows by exactly the number of
advancement calls. -/
theorem jedecRun_clk (step : Controller → Controller) (ops : List JedecOp) :
    ∀ s : JedecState,
      (JedecRun step s ops).clk_ = s.clk_ + ops.countP JedecOp.isTick := by
  induction ops with
  | nil => intro s; simp [JedecRun]
  | cons op rest ih =>
    intro s
    rw [JedecRun, ih, jedecStep_clk, List.countP_cons]
    by_cases h : op.isTick
    · simp only [h, if_true]
      omega
    · simp [h]

/-- C7: the simulated clock starts at 0 at construction of either variant,
each advancement call increments it by exactly one in both variants, no
other operation (submission, callback re-registration, final-report flush)
changes it, and over an arbitrary driver run it grows by exactly the
number of advancement calls — in particular it never decreases. -/
theorem clock_starts_at_zero_and_counts_ticks :
    (∀ (cfg : Config) (rcb wcb : Nat), (IdealConstruct cfg rcb wcb).clk_ = 0)
    ∧ (∀ (mkCtrl : Nat → Controller) (cfg : Config) (rcb wcb : Nat),
        cfg.is_hmc = false →
        ∃ s, JedecConstruct mkCtrl cfg rcb wcb = Except.ok s ∧ s.clk_ = 0)
    ∧ (∀ s : IdealState, (IdealClockTick s).1.clk_ = s.clk_ + 1)
    ∧ (∀ (step : Controller → Controller) (s : JedecState),
        (JedecClockTick step s).clk_ = s.clk_ + 1)
    ∧ (∀ (s : IdealState) (a : Nat) (w : Bool),
        (IdealAddTransaction s a w).2.clk_ = s.clk_)
    ∧ (∀ (s : JedecState) (a : Nat) (w : Bool),
        (JedecAddTransaction s a w).2.clk_ = s.clk_)
    ∧ (∀ (s : IdealState) (r w : Nat),
        (IdealRegisterCallbacks s r w).clk_ = s.clk_)
    ∧ (∀ (s : JedecState) (r w : Nat),
        (JedecRegisterCallbacks s r w).clk_ = s.clk_)
    ∧ (∀ s : JedecState, (JedecPrintStats s).clk_ = s.clk_)
    ∧ (∀ (s : IdealState) (ops : List IdealOp),
        (IdealRun s ops).clk_ = s.clk_ + ops.countP IdealOp.isTick)
    ∧ (∀ (step : Controller → Controller) (s : JedecState) (ops : List JedecOp),
        (JedecRun step s ops).clk_ = s.clk_ + ops.countP JedecOp.isTick)
    ∧ (∀ (s : IdealState) (ops : List IdealOp),
        s.clk_ ≤ (IdealRun s ops).clk_) := by
  refine ⟨fun _ _ _ => rfl, ?_, fun _ => rfl, jedecClockTick_clk,
    fun _ _ _ => rfl, jedecAddTransaction_clk, fun _ _ _ => rfl,
    fun _ _ _ => rfl, fun _ => rfl, fun s ops => idealRun_clk ops s,
    fun step s ops => jedecRun_clk step ops s, ?_⟩
  · intro mkCtrl cfg rcb wcb h
    have he : JedecConstruct mkCtrl cfg rcb wcb = Except.ok { clk_ := 0, config_ := cfg, ctrls_ := (List.range cfg.channels).map mkCtrl, epoch_csv_file_ := [], stats_out_ := [], read_callback_ := rcb, write_callback_ := wcb } := by
      simp [JedecConstruct, h]
    exact ⟨_, he, rfl⟩
  · intro s ops
    rw [idealRun_clk ops s]
    omega

/-- Witness for C7: constructing the Jedec system from a concrete non-HMC
configuration succeeds with the clock at 0. -/
theorem clock_starts_at_zero_and_counts_ticks_witness :
    ∃ s, JedecConstruct (fun i => ⟨i, fun _ _ => true, [], 0⟩)
        ⟨2, 0, 1, 6, 2, 1, 1, false⟩ 0 0 = Except.ok s ∧ s.clk_ = 0 :=
  clock_starts_at_zero_and_counts_ticks.2.1
    (fun i => ⟨i, fun _ _ => true, [], 0⟩) ⟨2, 0, 1, 6, 2, 1, 1, false⟩ 0 0 rfl

end dramsim3
